import Mathlib

/-!
A verification development for the montage layout engine of the photobooth
repository (`photobooth.py`): the functions `paste_images` and
`create_montage`.

The embedding models Pillow images by their pixel dimensions together with a
symbolic description of their pixel content (`Content`): every Pillow
operation the engine uses (`Image.new`, `Image.open`, `rotate(90, expand)`,
`resize`, `paste`) is deterministic, so a canvas's pixels are a function of
this description, and two canvases with equal descriptions are
pixel-identical.

Numeric model. The Python code computes `int(a / b)` on integers, `a / b`
(true division) for aspect ratios, and compares aspect ratios with `>`. We
model Python's float arithmetic as exact rational arithmetic:

* `int(a / b)` on integers is truncation toward zero of the exact quotient,
  `Int.tdiv` (`py_int_div`);
* `int(m / (w / h))` equals truncation of `m * h / w`, and
  `int(m * (w / h))` equals truncation of `m * w / h`, both exact;
* `w / h > W / H` is equivalent to `w * H > W * h` when `h > 0` and `H > 0`
  (cross-multiplication); the code divides by `h` and `H`, so Python raises
  `ZeroDivisionError` on a zero height — the theorems below carry the
  positivity hypotheses under which the model and the code agree.

Failure model. `Image.resize` raises `ValueError` unless both requested
dimensions are positive (Pillow: height and width must be > 0);
`imageResize` returns `Except.error PyErr.valueError` otherwise, and the
loop of `paste_images` propagates it. `create_montage` returns Python
`None` for an unsupported image count, modelled as `Except.ok none`; its one
`log.error` call is modelled by threading an explicit log (a `List String`)
through `create_montage`, which lets us state that the composed canvas does
not depend on that ambient state.
-/

namespace Photobooth

/-- Symbolic pixel content of a Pillow image. `solid` is `Image.new` with a
fill color; `file` is the decoded content of an image file (identified by an
opaque code); the remaining constructors record the engine's operations:
`rotate(90, expand=True)`, `resize` to a given size, and `paste` of a second
content at a position. Pillow's resampling and compositing are deterministic
functions of this data, so equal `Content` values denote pixel-identical
images. -/
inductive Content where
  | solid : ℕ × ℕ × ℕ → Content
  | file : ℕ → Content
  | rot90 : Content → Content
  | resized : Content → ℕ → ℕ → Content
  | pasted : Content → Content → ℤ → ℤ → Content
deriving DecidableEq

/-- A Pillow image: its size (`img.size == (width, height)`) and its pixel
content. -/
structure PILImage where
  width : ℕ
  height : ℕ
  content : Content
deriving DecidableEq

/-- The one Python exception the engine can raise on readable inputs:
`ValueError` from `Image.resize` on a non-positive requested size. -/
inductive PyErr where
  | valueError
deriving DecidableEq

/-- Python's `int(a / b)` for integers `a`, `b` under exact division:
truncation toward zero of the quotient. (`Int.tdiv` is truncating division;
Python's `/` is float division, exact for the magnitudes the engine
handles, and `int()` truncates toward zero.) -/
def py_int_div (a b : ℤ) : ℤ :=
  Int.tdiv a b

/-- `Image.new('RGB', dimensions, color)`: a solid canvas. -/
def imageNew (dimensions : ℕ × ℕ) (color : ℕ × ℕ × ℕ) : PILImage :=
  ⟨dimensions.1, dimensions.2, Content.solid color⟩

/-- `base_image.rotate(90, expand=True)`: a quarter turn with the bounding
box expanded to fit, so the size is transposed. -/
def rotate90expand (img : PILImage) : PILImage :=
  ⟨img.height, img.width, Content.rot90 img.content⟩

/-- `img.resize(new_size)`: raises `ValueError` unless both requested
dimensions are strictly positive (Pillow rejects zero as well as negative
sizes: height and width must be > 0), otherwise produces an image of exactly
the requested size. -/
def imageResize (img : PILImage) (sz : ℤ × ℤ) : Except PyErr PILImage :=
  if sz.1 ≤ 0 ∨ sz.2 ≤ 0 then Except.error PyErr.valueError
  else Except.ok ⟨sz.1.toNat, sz.2.toNat, Content.resized img.content sz.1.toNat sz.2.toNat⟩

/-- `base_image.paste(img, (pos_x, pos_y))`: in-place compositing; the
canvas keeps its size, and the paste is recorded in the content. -/
def imagePaste (base img : PILImage) (x y : ℤ) : PILImage :=
  ⟨base.width, base.height, Content.pasted base.content img.content x y⟩

/-- `offset = int(width / 100)` (photobooth.py line 100): the border offset,
derived from the (possibly rotated) canvas width only. -/
def offset (width : ℕ) : ℤ :=
  py_int_div (width : ℤ) 100

/-- `max_img_w = int((width - (rows + 1) * offset) / rows)`
(photobooth.py line 101). -/
def max_img_w (width rows : ℕ) : ℤ :=
  py_int_div ((width : ℤ) - ((rows : ℤ) + 1) * offset width) (rows : ℤ)

/-- `max_img_h = int((height - (cols + 1) * offset) / cols)`
(photobooth.py line 102); note the offset inside is derived from the width. -/
def max_img_h (width height cols : ℕ) : ℤ :=
  py_int_div ((height : ℤ) - ((cols : ℤ) + 1) * offset width) (cols : ℤ)

/-- `aspect_ratio = width / height` (photobooth.py line 103), as an exact
rational. Used to state the claims; the executable code below compares
aspect ratios by cross-multiplication, which agrees with this rational for
positive heights. -/
def aspect_ratio (width height : ℕ) : ℚ :=
  (width : ℚ) / (height : ℚ)

/-- `img_ar = img_w / img_h` (photobooth.py line 111), as an exact
rational. -/
def img_aspect (w h : ℕ) : ℚ :=
  (w : ℚ) / (h : ℚ)

/-- The resized size computed at photobooth.py lines 112–115:

    if img_ar > aspect_ratio:
        new_size = (max_img_w, int(max_img_w / img_ar))
    else:
        new_size = (int(max_img_h * img_ar), max_img_h)

`img_ar > aspect_ratio` (that is `w / h > W / H`) is rendered as
`W * h < w * H`, and `int(max_img_w / img_ar)`, `int(max_img_h * img_ar)`
as truncations of the exact products `max_img_w * h / w`, `max_img_h * w / h`;
both renderings agree with the Python code whenever `h ≥ 1` and `H ≥ 1`
(see `c4_resize_formula`). -/
def new_size (mw mh : ℤ) (W H w h : ℕ) : ℤ × ℤ :=
  if (W : ℤ) * (h : ℤ) < (w : ℤ) * (H : ℤ) then
    (mw, py_int_div (mw * (h : ℤ)) (w : ℤ))
  else
    (py_int_div (mh * (w : ℤ)) (h : ℤ), mh)

/-- `pos_x = offset + (i % rows) * (max_img_w + offset)`
(photobooth.py line 123). -/
def pos_x (off mw : ℤ) (rows i : ℕ) : ℤ :=
  off + ((i % rows : ℕ) : ℤ) * (mw + off)

/-- `pos_y = offset + (i // rows) * (max_img_h + offset)`
(photobooth.py line 124). -/
def pos_y (off mh : ℤ) (rows i : ℕ) : ℤ :=
  off + ((i / rows : ℕ) : ℤ) * (mh + off)

/-- The loop `for i, path in enumerate(paths):` of `paste_images`
(photobooth.py lines 106–125): open the image (`fs` is the file system,
mapping a path to the decoded image), resize it to `new_size`, and paste it
at `(pos_x, pos_y)` onto the accumulated base image. `i` is the
`enumerate` counter. A `ValueError` from `resize` aborts the whole call. -/
def paste_loop (fs : String → PILImage) (off mw mh : ℤ) (W H rows : ℕ) :
    ℕ → PILImage → List String → Except PyErr PILImage
  | _, base, [] => Except.ok base
  | i, base, path :: rest =>
    match imageResize (fs path) (new_size mw mh W H (fs path).width (fs path).height) with
    | Except.error e => Except.error e
    | Except.ok resized =>
      paste_loop fs off mw mh W H rows (i + 1)
        (imagePaste base resized (pos_x off mw rows i) (pos_y off mh rows i)) rest

/-- `paste_images(base_image, paths, shape)` (photobooth.py lines 88–127):
`rows, cols = shape`; rotate the canvas when there are more columns than
rows; then derive `offset`, `max_img_w`, `max_img_h` and the aspect ratio
from the (possibly rotated) canvas and run the paste loop. -/
def paste_images (fs : String → PILImage) (base_image : PILImage)
    (paths : List String) (shape : ℕ × ℕ) : Except PyErr PILImage :=
  paste_loop fs
    (offset (if shape.1 < shape.2 then rotate90expand base_image else base_image).width)
    (max_img_w (if shape.1 < shape.2 then rotate90expand base_image else base_image).width shape.1)
    (max_img_h (if shape.1 < shape.2 then rotate90expand base_image else base_image).width
      (if shape.1 < shape.2 then rotate90expand base_image else base_image).height shape.2)
    (if shape.1 < shape.2 then rotate90expand base_image else base_image).width
    (if shape.1 < shape.2 then rotate90expand base_image else base_image).height
    shape.1 0
    (if shape.1 < shape.2 then rotate90expand base_image else base_image) paths

/-- The fixed count-to-layout table `n_image_layout` of `create_montage`
(photobooth.py lines 147–151): `{1: (1, 1), 4: (2, 2), 9: (3, 3)}`;
`none` models absence of the key. -/
def n_image_layout (n : ℕ) : Option (ℕ × ℕ) :=
  if n = 1 then some (1, 1)
  else if n = 4 then some (2, 2)
  else if n = 9 then some (3, 3)
  else none

/-- The base image of `create_montage` (photobooth.py lines 140–143): a
white canvas of the given dimensions, or the background image opened from
its path. -/
def base_image_of (fs : String → PILImage) (dimensions : ℕ × ℕ)
    (background : Option String) : PILImage :=
  match background with
  | none => imageNew dimensions (255, 255, 255)
  | some bg => fs bg

/-- `create_montage(paths, dimensions, background)` (photobooth.py lines
130–157). The result pairs the returned value with the final log:
`Except.ok none` models the Python `return None` on an unsupported image
count (after `log.error` appends a message to the ambient log), and an
exception from `paste_images` propagates. -/
def create_montage (fs : String → PILImage) (paths : List String)
    (dimensions : ℕ × ℕ) (background : Option String) (logState : List String) :
    Except PyErr (Option PILImage) × List String :=
  match n_image_layout paths.length with
  | none => (Except.ok none, logState ++ ["unsupported amount of images"])
  | some shape =>
    match paste_images fs (base_image_of fs dimensions background) paths shape with
    | Except.ok img => (Except.ok (some img), logState)
    | Except.error e => (Except.error e, logState)

/-- The positions at which images were pasted onto a canvas, in paste order,
read off its content. (Rotation happens before any paste in this engine,
so pastes are only ever recorded outside `rot90`.) -/
def Content.pasteList : Content → List (ℤ × ℤ)
  | Content.pasted b _ x y => Content.pasteList b ++ [(x, y)]
  | _ => []

/-- The size of a successfully composed montage: `some (width, height)` when
`create_montage` returned a canvas, `none` when it returned Python `None` or
raised. -/
def result_dims : Except PyErr (Option PILImage) → Option (ℕ × ℕ)
  | Except.ok (some img) => some (img.width, img.height)
  | _ => none

/-! Concrete images and canvases used by the witnesses. -/

/-- A file system on which every path decodes to a 1×1 image. -/
def fs_unit : String → PILImage := fun _ => ⟨1, 1, Content.file 0⟩

/-- A file system on which every path decodes to a 2×3 image. -/
def fs_small : String → PILImage := fun _ => ⟨2, 3, Content.file 1⟩

/-- A file system on which every path decodes to a 500×500 image, for the
spec's 1000×1000 scenario. -/
def fs_demo : String → PILImage := fun _ => ⟨500, 500, Content.file 7⟩

/-- The 1000×1000 white canvas of the spec's worked scenario. -/
def demoBase : PILImage := imageNew (1000, 1000) (255, 255, 255)

/-- The resized content of one 500×500 demo image: 485×485. -/
def demoResized : Content := Content.resized (Content.file 7) 485 485

/-- The canvas `paste_images` produces in the spec's scenario: four 485×485
images pasted at (10,10), (505,10), (10,505), (505,505). -/
def demoCanvas : PILImage :=
  ⟨1000, 1000,
    Content.pasted
      (Content.pasted
        (Content.pasted
          (Content.pasted (Content.solid (255, 255, 255)) demoResized 10 10)
          demoResized 505 10)
        demoResized 10 505)
      demoResized 505 505⟩

/-- A 300×200 canvas used to exercise the rotation branch. -/
def c7base : PILImage := ⟨300, 200, Content.solid (0, 0, 0)⟩

/-- `c7base` after `rotate(90, expand=True)`: 200×300. -/
def c7rot : PILImage := ⟨200, 300, Content.rot90 (Content.solid (0, 0, 0))⟩

/-- The canvas `create_montage` produces from one 1×1 image on the default
1500×1000 white canvas: the image is resized to 970×970 and pasted at
(15, 15). -/
def c9Canvas : PILImage :=
  ⟨1500, 1000,
    Content.pasted (Content.solid (255, 255, 255))
      (Content.resized (Content.file 0) 970 970) 15 15⟩

/-! ### Basic facts about the numeric model -/

theorem py_int_div_nonneg {a b : ℤ} (ha : 0 ≤ a) (hb : 0 ≤ b) :
    0 ≤ py_int_div a b :=
  Int.tdiv_nonneg ha hb

theorem py_int_div_eq_floor {a : ℤ} {b : ℕ} (ha : 0 ≤ a) :
    py_int_div a (b : ℤ) = ⌊(a : ℚ) / (b : ℚ)⌋ := by
  rw [py_int_div, Int.tdiv_eq_ediv ha (by exact_mod_cast Nat.zero_le b)]
  exact (Rat.floor_intCast_div_natCast a b).symm

theorem py_int_div_mul_le {a : ℤ} {b : ℕ} (ha : 0 ≤ a) (hb : 1 ≤ b) :
    (b : ℤ) * py_int_div a (b : ℤ) ≤ a := by
  rw [py_int_div, Int.tdiv_eq_ediv ha (by exact_mod_cast Nat.zero_le b), mul_comm]
  exact Int.ediv_mul_le a (by exact_mod_cast Nat.one_le_iff_ne_zero.mp hb)

theorem offset_nonneg (W : ℕ) : 0 ≤ offset W :=
  py_int_div_nonneg (by exact_mod_cast Nat.zero_le W) (by norm_num)

theorem offset_hundred_le (W : ℕ) : 100 * offset W ≤ (W : ℤ) := by
  have h := py_int_div_mul_le (a := (W : ℤ)) (b := 100)
    (by exact_mod_cast Nat.zero_le W) (by norm_num)
  push_cast at h
  exact h

theorem max_img_w_num_nonneg (W r : ℕ) (hr : r ≤ 3) :
    0 ≤ (W : ℤ) - ((r : ℤ) + 1) * offset W := by
  have h1 : 0 ≤ offset W := offset_nonneg W
  have h2 : 100 * offset W ≤ (W : ℤ) := offset_hundred_le W
  have h3 : ((r : ℤ) + 1) ≤ 4 := by exact_mod_cast Nat.succ_le_succ hr
  have h4 : ((r : ℤ) + 1) * offset W ≤ 4 * offset W :=
    mul_le_mul_of_nonneg_right h3 h1
  linarith

theorem max_img_w_nonneg (W r : ℕ) (hr : r ≤ 3) : 0 ≤ max_img_w W r :=
  py_int_div_nonneg (max_img_w_num_nonneg W r hr) (by exact_mod_cast Nat.zero_le r)

theorem max_img_h_nonneg (W H c : ℕ) (hfit : ((c : ℤ) + 1) * offset W ≤ (H : ℤ)) :
    0 ≤ max_img_h W H c :=
  py_int_div_nonneg (by linarith) (by exact_mod_cast Nat.zero_le c)

theorem mul_max_img_w_le (W r : ℕ) (hr1 : 1 ≤ r) (hr : r ≤ 3) :
    (r : ℤ) * max_img_w W r ≤ (W : ℤ) - ((r : ℤ) + 1) * offset W := by
  unfold max_img_w
  exact py_int_div_mul_le (max_img_w_num_nonneg W r hr) hr1

theorem mul_max_img_h_le (W H c : ℕ) (hc1 : 1 ≤ c)
    (hfit : ((c : ℤ) + 1) * offset W ≤ (H : ℤ)) :
    (c : ℤ) * max_img_h W H c ≤ (H : ℤ) - ((c : ℤ) + 1) * offset W := by
  unfold max_img_h
  exact py_int_div_mul_le (by linarith) hc1

theorem n_image_layout_inv {n r c : ℕ} (h : n_image_layout n = some (r, c)) :
    r = c ∧ 1 ≤ r ∧ r ≤ 3 := by
  unfold n_image_layout at h
  split_ifs at h
  · injection h with h
    injection h with h1 h2
    subst h1; subst h2
    exact ⟨rfl, by norm_num, by norm_num⟩
  · injection h with h
    injection h with h1 h2
    subst h1; subst h2
    exact ⟨rfl, by norm_num, by norm_num⟩
  · injection h with h
    injection h with h1 h2
    subst h1; subst h2
    exact ⟨rfl, by norm_num, by norm_num⟩

theorem n_image_layout_eq_none {n : ℕ} (h : ¬ (n = 1 ∨ n = 4 ∨ n = 9)) :
    n_image_layout n = none := by
  push_neg at h
  unfold n_image_layout
  rw [if_neg h.1, if_neg h.2.1, if_neg h.2.2]

theorem py_int_div_one_le {a : ℤ} {b : ℕ} (hb : 1 ≤ b) (hab : (b : ℤ) ≤ a) :
    1 ≤ py_int_div a (b : ℤ) := by
  have hb' : (0 : ℤ) < (b : ℤ) := by exact_mod_cast hb
  have ha : 0 ≤ a := le_trans (le_of_lt hb') hab
  rw [py_int_div, Int.tdiv_eq_ediv ha (le_of_lt hb')]
  rw [Int.le_ediv_iff_mul_le hb']
  linarith

theorem new_size_one_le {mw mh : ℤ} (hmw : 1 ≤ mw) (hmh : 1 ≤ mh)
    (W H w h : ℕ) (hw : 1 ≤ w) (hh : 1 ≤ h)
    (hwb : (w : ℤ) ≤ mw * (h : ℤ)) (hhb : (h : ℤ) ≤ mh * (w : ℤ)) :
    1 ≤ (new_size mw mh W H w h).1 ∧ 1 ≤ (new_size mw mh W H w h).2 := by
  unfold new_size
  split
  · exact ⟨hmw, py_int_div_one_le hw hwb⟩
  · exact ⟨py_int_div_one_le hh hhb, hmh⟩

/-! ### Invariants of the paste loop -/

theorem pasteList_imagePaste (base img : PILImage) (x y : ℤ) :
    (imagePaste base img x y).content.pasteList
      = base.content.pasteList ++ [(x, y)] := rfl

theorem paste_loop_dims (fs : String → PILImage) (off mw mh : ℤ) (W H rows : ℕ) :
    ∀ (paths : List String) (i : ℕ) (base cnv : PILImage),
      paste_loop fs off mw mh W H rows i base paths = Except.ok cnv →
      cnv.width = base.width ∧ cnv.height = base.height := by
  intro paths
  induction paths with
  | nil =>
    intro i base cnv h
    simp only [paste_loop, Except.ok.injEq] at h
    subst h
    exact ⟨rfl, rfl⟩
  | cons p rest ih =>
    intro i base cnv h
    simp only [paste_loop] at h
    split at h
    · simp at h
    · next resized hres =>
      have hr := ih (i + 1)
        (imagePaste base resized (pos_x off mw rows i) (pos_y off mh rows i)) cnv h
      simpa [imagePaste] using hr

theorem paste_loop_ok (fs : String → PILImage) (off mw mh : ℤ) (W H rows : ℕ) :
    ∀ (paths : List String) (i : ℕ) (base : PILImage),
      (∀ p ∈ paths,
        1 ≤ (new_size mw mh W H (fs p).width (fs p).height).1 ∧
        1 ≤ (new_size mw mh W H (fs p).width (fs p).height).2) →
      ∃ cnv, paste_loop fs off mw mh W H rows i base paths = Except.ok cnv ∧
        cnv.width = base.width ∧ cnv.height = base.height := by
  intro paths
  induction paths with
  | nil =>
    intro i base _
    exact ⟨base, rfl, rfl, rfl⟩
  | cons p rest ih =>
    intro i base hpos
    obtain ⟨hns1, hns2⟩ := hpos p (List.mem_cons_self p rest)
    have hres : imageResize (fs p) (new_size mw mh W H (fs p).width (fs p).height)
        = Except.ok ⟨(new_size mw mh W H (fs p).width (fs p).height).1.toNat,
            (new_size mw mh W H (fs p).width (fs p).height).2.toNat,
            Content.resized (fs p).content
              (new_size mw mh W H (fs p).width (fs p).height).1.toNat
              (new_size mw mh W H (fs p).width (fs p).height).2.toNat⟩ := by
      unfold imageResize
      rw [if_neg]
      rw [not_or]
      exact ⟨not_le.mpr (by linarith), not_le.mpr (by linarith)⟩
    obtain ⟨cnv, h1, h2, h3⟩ := ih (i + 1)
      (imagePaste base
        ⟨(new_size mw mh W H (fs p).width (fs p).height).1.toNat,
          (new_size mw mh W H (fs p).width (fs p).height).2.toNat,
          Content.resized (fs p).content
            (new_size mw mh W H (fs p).width (fs p).height).1.toNat
            (new_size mw mh W H (fs p).width (fs p).height).2.toNat⟩
        (pos_x off mw rows i) (pos_y off mh rows i))
      (fun q hq => hpos q (List.mem_cons_of_mem p hq))
    refine ⟨cnv, ?_, ?_, ?_⟩
    · simp only [paste_loop, hres]
      exact h1
    · simpa [imagePaste] using h2
    · simpa [imagePaste] using h3

theorem paste_loop_pasteList (fs : String → PILImage) (off mw mh : ℤ)
    (W H rows : ℕ) :
    ∀ (paths : List String) (i : ℕ) (base cnv : PILImage),
      paste_loop fs off mw mh W H rows i base paths = Except.ok cnv →
      cnv.content.pasteList = base.content.pasteList
        ++ (List.range paths.length).map
            (fun k => (pos_x off mw rows (i + k), pos_y off mh rows (i + k))) := by
  intro paths
  induction paths with
  | nil =>
    intro i base cnv h
    simp only [paste_loop, Except.ok.injEq] at h
    subst h
    simp
  | cons p rest ih =>
    intro i base cnv h
    simp only [paste_loop] at h
    split at h
    · simp at h
    · next resized hres =>
      have hrec := ih (i + 1)
        (imagePaste base resized (pos_x off mw rows i) (pos_y off mh rows i)) cnv h
      rw [hrec, pasteList_imagePaste]
      simp only [List.length_cons, List.range_succ_eq_map, List.map_cons,
        List.map_map, Nat.add_zero, List.append_assoc, List.singleton_append]
      congr 1
      congr 1
      apply List.map_congr_left
      intro k _
      simp only [Function.comp_apply, Nat.succ_eq_add_one]
      have hik : i + 1 + k = i + (k + 1) := by omega
      rw [hik]

theorem py_int_div_bounds {a : ℤ} {b : ℕ} (ha : 0 ≤ a) (hb : 1 ≤ b) :
    (b : ℤ) * py_int_div a (b : ℤ) ≤ a ∧ a < (b : ℤ) * (py_int_div a (b : ℤ) + 1) := by
  refine ⟨py_int_div_mul_le ha hb, ?_⟩
  rw [py_int_div, Int.tdiv_eq_ediv ha (by exact_mod_cast Nat.zero_le b)]
  have hb' : (0 : ℤ) < (b : ℤ) := by exact_mod_cast hb
  have h := Int.lt_ediv_add_one_mul_self a hb'
  linarith [mul_comm (a / (b : ℤ) + 1) (b : ℤ), h]

theorem py_int_div_le_of_le {a m : ℤ} {b : ℕ} (ha : 0 ≤ a) (hb : 1 ≤ b)
    (hab : a ≤ (b : ℤ) * m) : py_int_div a (b : ℤ) ≤ m := by
  rw [py_int_div, Int.tdiv_eq_ediv ha (by exact_mod_cast Nat.zero_le b)]
  have hb' : (0 : ℤ) < (b : ℤ) := by exact_mod_cast hb
  calc a / (b : ℤ) ≤ ((b : ℤ) * m) / (b : ℤ) := Int.ediv_le_ediv hb' hab
    _ = m := Int.mul_ediv_cancel_left m (ne_of_gt hb')

theorem paste_images_no_rotation (fs : String → PILImage) (base_image : PILImage)
    (paths : List String) {r c : ℕ} (h : ¬ r < c) :
    paste_images fs base_image paths (r, c)
      = paste_loop fs (offset base_image.width) (max_img_w base_image.width r)
          (max_img_h base_image.width base_image.height c)
          base_image.width base_image.height r 0 base_image paths := by
  unfold paste_images
  simp [h]

theorem paste_images_rotation (fs : String → PILImage) (base_image : PILImage)
    (paths : List String) {r c : ℕ} (h : r < c) :
    paste_images fs base_image paths (r, c)
      = paste_loop fs (offset (rotate90expand base_image).width)
          (max_img_w (rotate90expand base_image).width r)
          (max_img_h (rotate90expand base_image).width (rotate90expand base_image).height c)
          (rotate90expand base_image).width (rotate90expand base_image).height
          r 0 (rotate90expand base_image) paths := by
  unfold paste_images
  simp [h]

/-! ### The claims -/

/-- C2: for every list of image paths whose length is not one of the
supported counts 1, 4 or 9, `create_montage` returns Python `None`
(modelled `Except.ok none`) whatever the dimensions, background and prior
log state: the operation fails and no canvas is produced. -/
theorem create_montage_unsupported_count (fs : String → PILImage)
    (paths : List String) (dimensions : ℕ × ℕ) (background : Option String)
    (logState : List String)
    (h : ¬ (paths.length = 1 ∨ paths.length = 4 ∨ paths.length = 9)) :
    (create_montage fs paths dimensions background logState).1 = Except.ok none := by
  simp only [create_montage, n_image_layout_eq_none h]

/-- Witness for C2: two image paths are rejected. -/
theorem create_montage_unsupported_count_witness :
    ¬ ((["a", "b"] : List String).length = 1 ∨ (["a", "b"] : List String).length = 4
        ∨ (["a", "b"] : List String).length = 9) ∧
    (create_montage fs_unit ["a", "b"] (1500, 1000) none []).1 = Except.ok none :=
  ⟨by decide,
   create_montage_unsupported_count fs_unit ["a", "b"] (1500, 1000) none [] (by decide)⟩

/-- C8: the value `create_montage` returns is a deterministic function of the
file system, the paths, the dimensions and the background: it does not read
the ambient log state (the only global state the code touches), so two calls
with identical inputs — each building its own fresh base canvas — return
equal canvases, and equal canvas descriptions denote pixel-identical
images. -/
theorem create_montage_deterministic (fs : String → PILImage)
    (paths : List String) (dimensions : ℕ × ℕ) (background : Option String)
    (log1 log2 : List String) :
    (create_montage fs paths dimensions background log1).1
      = (create_montage fs paths dimensions background log2).1 := by
  cases hl : n_image_layout paths.length with
  | none => simp only [create_montage, hl]
  | some shape =>
    cases hp : paste_images fs (base_image_of fs dimensions background) paths shape with
    | ok img => simp only [create_montage, hl, hp]
    | error e => simp only [create_montage, hl, hp]

/-- C9: the only layouts `create_montage` can pass to `paste_images` are the
square ones of the fixed table, so through this entry point the rotation
branch is never taken, and a returned canvas always has the base canvas's
original, unrotated width and height. -/
theorem create_montage_layouts_square :
    (∀ n r c : ℕ, n_image_layout n = some (r, c) → r = c) ∧
    (∀ (fs : String → PILImage) (paths : List String) (dimensions : ℕ × ℕ)
        (background : Option String) (logState : List String) (cnv : PILImage),
      (create_montage fs paths dimensions background logState).1
          = Except.ok (some cnv) →
      cnv.width = (base_image_of fs dimensions background).width ∧
      cnv.height = (base_image_of fs dimensions background).height) := by
  constructor
  · intro n r c h
    exact (n_image_layout_inv h).1
  · intro fs paths dims bg s cnv h
    cases hl : n_image_layout paths.length with
    | none => simp [create_montage, hl] at h
    | some shape =>
      obtain ⟨r, c⟩ := shape
      obtain ⟨hrc, hr1, hr3⟩ := n_image_layout_inv hl
      subst hrc
      simp only [create_montage, hl] at h
      cases hp : paste_images fs (base_image_of fs dims bg) paths (r, r) with
      | error e => simp [hp] at h
      | ok img =>
        simp [hp] at h
        subst h
        rw [paste_images_no_rotation fs (base_image_of fs dims bg) paths (lt_irrefl r)] at hp
        exact paste_loop_dims fs _ _ _ _ _ r paths 0 (base_image_of fs dims bg) _ hp

/-- Witness for C9: the layout for four images is square, and the montage
composed from one 1×1 image on the default 1500×1000 canvas keeps the base
canvas's size. -/
theorem create_montage_layouts_square_witness :
    ((2 : ℕ) = 2) ∧ (c9Canvas.width = 1500 ∧ c9Canvas.height = 1000) :=
  ⟨create_montage_layouts_square.1 4 2 2 rfl,
   create_montage_layouts_square.2 fs_unit ["p"] (1500, 1000) none [] c9Canvas rfl⟩

/-- C7: when a layout has more columns than rows, `paste_images` rotates the
canvas 90° with bounding-box expansion before any placement, so both the
canvas all geometry is derived from and the returned canvas have the
transposed size (H, W); with cols ≤ rows no rotation happens and the size
stays (W, H). -/
theorem paste_images_orientation (fs : String → PILImage) (base_image : PILImage)
    (paths : List String) (rows cols : ℕ) (cnv : PILImage)
    (hrun : paste_images fs base_image paths (rows, cols) = Except.ok cnv) :
    ((cnv.width, cnv.height)
        = if rows < cols then (base_image.height, base_image.width)
          else (base_image.width, base_image.height)) ∧
    rotate90expand base_image
      = ⟨base_image.height, base_image.width, Content.rot90 base_image.content⟩ ∧
    (rows < cols →
      paste_images fs base_image paths (rows, cols)
        = paste_loop fs (offset base_image.height)
            (max_img_w base_image.height rows)
            (max_img_h base_image.height base_image.width cols)
            base_image.height base_image.width rows 0
            (rotate90expand base_image) paths) := by
  refine ⟨?_, rfl, ?_⟩
  · by_cases hlt : rows < cols
    · rw [if_pos hlt]
      rw [paste_images_rotation fs base_image paths hlt] at hrun
      obtain ⟨h1, h2⟩ := paste_loop_dims fs _ _ _ _ _ rows paths 0
        (rotate90expand base_image) cnv hrun
      rw [h1, h2]
      rfl
    · rw [if_neg hlt]
      rw [paste_images_no_rotation fs base_image paths hlt] at hrun
      obtain ⟨h1, h2⟩ := paste_loop_dims fs _ _ _ _ _ rows paths 0 base_image cnv hrun
      rw [h1, h2]
  · intro hlt
    exact paste_images_rotation fs base_image paths hlt

/-- Witness for C7: a 300×200 canvas with layout (1, 2) is rotated to
200×300, and the geometry is computed from the rotated size. -/
theorem paste_images_orientation_witness :
    ((c7rot.width, c7rot.height)
        = if (1 : ℕ) < (2 : ℕ) then (c7base.height, c7base.width)
          else (c7base.width, c7base.height)) ∧
    paste_images fs_unit c7base ([] : List String) (1, 2)
      = paste_loop fs_unit (offset c7base.height)
          (max_img_w c7base.height 1)
          (max_img_h c7base.height c7base.width 2)
          c7base.height c7base.width 1 0 (rotate90expand c7base) ([] : List String) :=
  ⟨(paste_images_orientation fs_unit c7base [] 1 2 c7rot rfl).1,
   (paste_images_orientation fs_unit c7base [] 1 2 c7rot rfl).2.2 (by decide)⟩

/-- C6: `paste_images` pastes the images in input order at
`pos_x = offset + (i % rows) * (max_img_w + offset)` and
`pos_y = offset + (i / rows) * (max_img_h + offset)` (geometry taken from
the possibly rotated canvas `b`), and for a (2, 2) layout these formulas
send image 0 to the top-left cell, image 1 to the top-right, image 2 to the
bottom-left and image 3 to the bottom-right. -/
theorem paste_images_positions (fs : String → PILImage) (base_image b : PILImage)
    (paths : List String) (shape : ℕ × ℕ) (cnv : PILImage)
    (hb : b = if shape.1 < shape.2 then rotate90expand base_image else base_image)
    (hrun : paste_images fs base_image paths shape = Except.ok cnv) :
    cnv.content.pasteList
      = b.content.pasteList
        ++ (List.range paths.length).map (fun i =>
            (pos_x (offset b.width) (max_img_w b.width shape.1) shape.1 i,
             pos_y (offset b.width) (max_img_h b.width b.height shape.2) shape.1 i)) ∧
    (∀ off mw mh : ℤ,
      (pos_x off mw 2 0 = off ∧ pos_y off mh 2 0 = off) ∧
      (pos_x off mw 2 1 = off + (mw + off) ∧ pos_y off mh 2 1 = off) ∧
      (pos_x off mw 2 2 = off ∧ pos_y off mh 2 2 = off + (mh + off)) ∧
      (pos_x off mw 2 3 = off + (mw + off) ∧ pos_y off mh 2 3 = off + (mh + off))) := by
  constructor
  · subst hb
    unfold paste_images at hrun
    have h := paste_loop_pasteList fs _ _ _ _ _ shape.1 paths 0
      (if shape.1 < shape.2 then rotate90expand base_image else base_image) cnv hrun
    simpa using h
  · intro off mw mh
    refine ⟨⟨?_, ?_⟩, ⟨?_, ?_⟩, ⟨?_, ?_⟩, ⟨?_, ?_⟩⟩ <;>
      norm_num [pos_x, pos_y]

/-- Witness for C6: the spec's 1000×1000 scenario with four 500×500 images;
the four paste positions are (10,10), (505,10), (10,505), (505,505), and the
(2, 2) formulas place indices 0..3 in the four quadrants. -/
theorem paste_images_positions_witness :
    demoCanvas.content.pasteList
      = demoBase.content.pasteList
        ++ (List.range (["a", "b", "c", "d"] : List String).length).map (fun i =>
            (pos_x (offset demoBase.width) (max_img_w demoBase.width 2) 2 i,
             pos_y (offset demoBase.width) (max_img_h demoBase.width demoBase.height 2) 2 i)) ∧
    ((pos_x 10 485 2 0 = 10 ∧ pos_y 10 485 2 0 = 10) ∧
     (pos_x 10 485 2 1 = 10 + (485 + 10) ∧ pos_y 10 485 2 1 = 10) ∧
     (pos_x 10 485 2 2 = 10 ∧ pos_y 10 485 2 2 = 10 + (485 + 10)) ∧
     (pos_x 10 485 2 3 = 10 + (485 + 10) ∧ pos_y 10 485 2 3 = 10 + (485 + 10))) :=
  ⟨(paste_images_positions fs_demo demoBase demoBase ["a", "b", "c", "d"] (2, 2)
      demoCanvas (by decide) rfl).1,
   (paste_images_positions fs_demo demoBase demoBase ["a", "b", "c", "d"] (2, 2)
      demoCanvas (by decide) rfl).2 10 485 485⟩

/-- C10 counterexample: the claim fails for degenerate canvases. On a
100-wide, 2-high canvas with layout (3, 3), image index 6 is placed at
`pos_y = 3` with `max_img_h = 0`, and 3 + 0 > 2: the cell box sticks out
below the canvas. -/
theorem cell_box_in_canvas_counterexample :
    ¬ (pos_y (offset 100) (max_img_h 100 2 3) 3 6 + max_img_h 100 2 3 ≤ (2 : ℤ)) := by
  decide

/-- C10 (amended): for the supported (square) layouts and any canvas with
W ≥ 1 and H ≥ 1 whose height leaves room for the gutters
((cols+1)·offset ≤ H — the counterexample shows the claim fails without
this), every cell box placed by the code lies inside the canvas:
`pos_x + max_img_w ≤ W` and `pos_y + max_img_h ≤ H` for every image index
i < rows·cols. -/
theorem cell_box_in_canvas (W H r c i n : ℕ)
    (hl : n_image_layout n = some (r, c))
    (hW : 1 ≤ W) (hH : 1 ≤ H) (hi : i < r * c)
    (hfit : ((c : ℤ) + 1) * offset W ≤ (H : ℤ)) :
    pos_x (offset W) (max_img_w W r) r i + max_img_w W r ≤ (W : ℤ) ∧
    pos_y (offset W) (max_img_h W H c) r i + max_img_h W H c ≤ (H : ℤ) := by
  obtain ⟨hrc, hr1, hr3⟩ := n_image_layout_inv hl
  subst hrc
  have ho : 0 ≤ offset W := offset_nonneg W
  have hmw : 0 ≤ max_img_w W r := max_img_w_nonneg W r hr3
  have hmh : 0 ≤ max_img_h W H r := max_img_h_nonneg W H r hfit
  have hmwle : (r : ℤ) * max_img_w W r ≤ (W : ℤ) - ((r : ℤ) + 1) * offset W :=
    mul_max_img_w_le W r hr1 hr3
  have hmhle : (r : ℤ) * max_img_h W H r ≤ (H : ℤ) - ((r : ℤ) + 1) * offset W :=
    mul_max_img_h_le W H r hr1 hfit
  have hmod : ((i % r : ℕ) : ℤ) ≤ (r : ℤ) - 1 := by
    have h1 : i % r < r := Nat.mod_lt i hr1
    omega
  have hdiv : ((i / r : ℕ) : ℤ) ≤ (r : ℤ) - 1 := by
    have h1 : i / r < r := (Nat.div_lt_iff_lt_mul hr1).mpr (by omega)
    omega
  constructor
  · unfold pos_x
    have hstep : ((i % r : ℕ) : ℤ) * (max_img_w W r + offset W)
        ≤ ((r : ℤ) - 1) * (max_img_w W r + offset W) :=
      mul_le_mul_of_nonneg_right hmod (by linarith)
    nlinarith [hstep, hmwle, ho, hmw]
  · unfold pos_y
    have hstep : ((i / r : ℕ) : ℤ) * (max_img_h W H r + offset W)
        ≤ ((r : ℤ) - 1) * (max_img_h W H r + offset W) :=
      mul_le_mul_of_nonneg_right hdiv (by linarith)
    nlinarith [hstep, hmhle, ho, hmh]

/-- Witness for C10 at the spec's 1000×1000 scenario, layout (2, 2), last
index. -/
theorem cell_box_in_canvas_witness :
    pos_x (offset 1000) (max_img_w 1000 2) 2 3 + max_img_w 1000 2 ≤ (1000 : ℤ) ∧
    pos_y (offset 1000) (max_img_h 1000 1000 2) 2 3 + max_img_h 1000 1000 2 ≤ (1000 : ℤ) :=
  cell_box_in_canvas 1000 1000 2 2 3 4 (by decide) (by decide) (by decide)
    (by decide) (by decide)

/-- C3 counterexample: the claim fails as stated. For one readable 1×1 image
on an explicit 10000×10 canvas (a supported count), `max_img_h` is −190, the
requested resize size is negative, `Image.resize` raises `ValueError`, and
`create_montage` produces no canvas at all. -/
theorem create_montage_supported_counterexample :
    (create_montage fs_unit ["p"] (10000, 10) none []).1
        = Except.error PyErr.valueError ∧
    result_dims (create_montage fs_unit ["p"] (10000, 10) none []).1 = none :=
  ⟨rfl, rfl⟩

/-- C3 (amended): for every list of readable image paths (positive pixel
sizes) whose length is a supported count, and every base canvas of positive
size whose computed cell bounds are positive (1 ≤ max_img_w, 1 ≤ max_img_h)
and accommodate every image's aspect ratio (w ≤ max_img_w·h and
h ≤ max_img_h·w, so that neither coordinate of the requested resize size
rounds down to zero), `create_montage` returns a non-null canvas whose width
and height equal the base canvas's (the explicit dimensions when background
is absent, otherwise the background image's size; the table's layouts are
all square, so no rotation occurs). Without these conditions the code
raises `ValueError` from `Image.resize` — on a negative size when the
canvas is too small for its gutters (the counterexample), or on a zero size
when an image is extremely oblong relative to its cell (for instance one
10000×1 image on the default 1500×1000 canvas resizes to (1470, 0)) — and
no canvas is returned. -/
theorem create_montage_supported_ok (fs : String → PILImage) (paths : List String)
    (dimensions : ℕ × ℕ) (background : Option String) (logState : List String)
    (r c : ℕ) (hl : n_image_layout paths.length = some (r, c))
    (himg : ∀ p ∈ paths, 1 ≤ (fs p).width ∧ 1 ≤ (fs p).height)
    (hW : 1 ≤ (base_image_of fs dimensions background).width)
    (hH : 1 ≤ (base_image_of fs dimensions background).height)
    (hmw : 1 ≤ max_img_w (base_image_of fs dimensions background).width r)
    (hmh : 1 ≤ max_img_h (base_image_of fs dimensions background).width
        (base_image_of fs dimensions background).height c)
    (hres : ∀ p ∈ paths,
      ((fs p).width : ℤ)
          ≤ max_img_w (base_image_of fs dimensions background).width r
            * ((fs p).height : ℤ) ∧
      ((fs p).height : ℤ)
          ≤ max_img_h (base_image_of fs dimensions background).width
              (base_image_of fs dimensions background).height c
            * ((fs p).width : ℤ)) :
    result_dims (create_montage fs paths dimensions background logState).1
      = some ((base_image_of fs dimensions background).width,
          (base_image_of fs dimensions background).height) := by
  obtain ⟨hrc, hr1, hr3⟩ := n_image_layout_inv hl
  subst hrc
  obtain ⟨cnv, hok, hwid, hht⟩ :=
    paste_loop_ok fs (offset (base_image_of fs dimensions background).width)
      (max_img_w (base_image_of fs dimensions background).width r)
      (max_img_h (base_image_of fs dimensions background).width
        (base_image_of fs dimensions background).height r)
      (base_image_of fs dimensions background).width
      (base_image_of fs dimensions background).height r paths 0
      (base_image_of fs dimensions background)
      (fun p hp =>
        new_size_one_le hmw hmh _ _ _ _ (himg p hp).1 (himg p hp).2
          (hres p hp).1 (hres p hp).2)
  simp only [create_montage, hl]
  rw [paste_images_no_rotation fs (base_image_of fs dimensions background) paths
    (lt_irrefl r), hok]
  simp [result_dims, hwid, hht]

/-- Witness for C3: one readable 2×3 image on the default 1500×1000 canvas
(cell bounds 1470×970, both resize coordinates positive) yields a 1500×1000
montage. -/
theorem create_montage_supported_ok_witness :
    result_dims (create_montage fs_small ["p"] (1500, 1000) none []).1
      = some (1500, 1000) :=
  create_montage_supported_ok fs_small ["p"] (1500, 1000) none [] 1 1 (by decide)
    (fun _ _ => ⟨(by decide : (1 : ℕ) ≤ 2), (by decide : (1 : ℕ) ≤ 3)⟩)
    (by decide) (by decide) (by decide) (by decide)
    (fun _ _ =>
      ⟨(by decide : ((2 : ℕ) : ℤ) ≤ max_img_w 1500 1 * ((3 : ℕ) : ℤ)),
       (by decide : ((3 : ℕ) : ℤ) ≤ max_img_h 1500 1000 1 * ((2 : ℕ) : ℤ))⟩)

/-- C1 counterexample: the claim fails on the default canvas. With the
1500×1000 canvas, layout (2, 2) and a 1501×1000 image, the image's aspect
exceeds the canvas aspect, so the code resizes to width `max_img_w = 727`
and height `int(727 / 1.501) = 484`, which exceeds
`maxCellH = ⌊(1000 − 3·15)/2⌋ = 477`: the placed image is taller than its
cell box. (The code compares the image aspect with the canvas aspect, not
the cell aspect, and the gutter offset is derived from the width alone, so
cells are not similar to the canvas.) -/
theorem cell_fit_counterexample :
    max_img_h 1500 1000 2
        = ⌊(((1000 : ℕ) : ℚ) - (((2 : ℕ) : ℚ) + 1) * ((offset 1500 : ℤ) : ℚ))
            / ((2 : ℕ) : ℚ)⌋ ∧
    ¬ ((new_size (max_img_w 1500 2) (max_img_h 1500 1000 2) 1500 1000 1501 1000).2
        ≤ max_img_h 1500 1000 2) := by
  constructor
  · have h1 : max_img_h 1500 1000 2 = 477 := by decide
    have h2 : (offset 1500 : ℤ) = 15 := by decide
    rw [h1, h2]
    rw [show (((1000 : ℕ) : ℚ) - (((2 : ℕ) : ℚ) + 1) * ((15 : ℤ) : ℚ)) / ((2 : ℕ) : ℚ)
        = ((955 : ℤ) : ℚ) / ((2 : ℕ) : ℚ) by push_cast; norm_num]
    rw [Rat.floor_intCast_div_natCast]
    decide
  · decide

/-- C1 (amended): on a square canvas (W = H — the counterexample shows the
claim fails for non-square canvases), for every supported layout and every
image of positive size, the resized size computed by `paste_images` fits the
cell box: `newW ≤ max_img_w` and `newH ≤ max_img_h`. -/
theorem cell_fit_square_canvas (W H r c w h n : ℕ)
    (hWH : W = H) (hW : 1 ≤ W) (hl : n_image_layout n = some (r, c))
    (hw : 1 ≤ w) (hh : 1 ≤ h) :
    (new_size (max_img_w W r) (max_img_h W H c) W H w h).1 ≤ max_img_w W r ∧
    (new_size (max_img_w W r) (max_img_h W H c) W H w h).2 ≤ max_img_h W H c := by
  obtain ⟨hrc, hr1, hr3⟩ := n_image_layout_inv hl
  subst hrc
  subst hWH
  have hmm : max_img_h W W r = max_img_w W r := rfl
  rw [hmm]
  have hmw : 0 ≤ max_img_w W r := max_img_w_nonneg W r hr3
  have hWpos : (0 : ℤ) < (W : ℤ) := by exact_mod_cast hW
  unfold new_size
  split
  · next hcond =>
    have hhw : (h : ℤ) ≤ (w : ℤ) := by
      rw [mul_comm] at hcond
      exact le_of_lt (lt_of_mul_lt_mul_right hcond (le_of_lt hWpos))
    refine ⟨le_refl _, ?_⟩
    exact py_int_div_le_of_le
      (mul_nonneg hmw (by exact_mod_cast Nat.zero_le h)) hw
      (by nlinarith)
  · next hcond =>
    have hwh : (w : ℤ) ≤ (h : ℤ) := by
      rw [not_lt] at hcond
      rw [mul_comm ((w : ℤ)) ((W : ℤ))] at hcond
      exact le_of_mul_le_mul_left hcond hWpos
    refine ⟨?_, le_refl _⟩
    exact py_int_div_le_of_le
      (mul_nonneg hmw (by exact_mod_cast Nat.zero_le w)) hh
      (by nlinarith)

/-- Witness for C1 at the spec's square 1000×1000 scenario with a 500×500
image: the resized size 485×485 fits the 485×485 cell. -/
theorem cell_fit_square_canvas_witness :
    (new_size (max_img_w 1000 2) (max_img_h 1000 1000 2) 1000 1000 500 500).1
        ≤ max_img_w 1000 2 ∧
    (new_size (max_img_w 1000 2) (max_img_h 1000 1000 2) 1000 1000 500 500).2
        ≤ max_img_h 1000 1000 2 :=
  cell_fit_square_canvas 1000 1000 2 2 500 500 4 rfl (by decide) (by decide)
    (by decide) (by decide)

/-- C4: the resize computation of `paste_images`. The code's comparison
`img_ar > aspect_ratio` is exactly `W·h < w·H` (first conjunct), the
width-bound branch returns `(max_img_w, ⌊max_img_w / imgAspect⌋)`, the
height-bound branch returns `(⌊max_img_h · imgAspect⌋, max_img_h)`, and in
each branch the free coordinate is the floor of the exact aspect-preserving
value, so the resized ratio equals w/h up to integer rounding of that one
coordinate. Stated for any nonnegative cell bounds `mw`, `mh` (the values
`max_img_w`, `max_img_h` take in the supported configurations). -/
theorem resize_formula (W H w h : ℕ) (mw mh : ℤ)
    (hH : 1 ≤ H) (hw : 1 ≤ w) (hh : 1 ≤ h)
    (hmw : 0 ≤ mw) (hmh : 0 ≤ mh) :
    (aspect_ratio W H < img_aspect w h ↔ (W : ℤ) * (h : ℤ) < (w : ℤ) * (H : ℤ)) ∧
    ((W : ℤ) * (h : ℤ) < (w : ℤ) * (H : ℤ) →
      new_size mw mh W H w h = (mw, ⌊(mw : ℚ) / img_aspect w h⌋) ∧
      (w : ℤ) * (new_size mw mh W H w h).2 ≤ mw * (h : ℤ) ∧
      mw * (h : ℤ) < (w : ℤ) * ((new_size mw mh W H w h).2 + 1)) ∧
    (¬ (W : ℤ) * (h : ℤ) < (w : ℤ) * (H : ℤ) →
      new_size mw mh W H w h = (⌊(mh : ℚ) * img_aspect w h⌋, mh) ∧
      (h : ℤ) * (new_size mw mh W H w h).1 ≤ mh * (w : ℤ) ∧
      mh * (w : ℤ) < (h : ℤ) * ((new_size mw mh W H w h).1 + 1)) := by
  have hh0 : (0 : ℚ) < (h : ℚ) := by exact_mod_cast hh
  have hH0 : (0 : ℚ) < (H : ℚ) := by exact_mod_cast hH
  refine ⟨?_, ?_, ?_⟩
  · unfold aspect_ratio img_aspect
    rw [div_lt_div_iff hH0 hh0]
    constructor
    · intro hx; exact_mod_cast hx
    · intro hx; exact_mod_cast hx
  · intro hlt
    have heq : new_size mw mh W H w h = (mw, py_int_div (mw * (h : ℤ)) (w : ℤ)) := by
      unfold new_size; rw [if_pos hlt]
    have hb := py_int_div_bounds (a := mw * (h : ℤ)) (b := w)
      (mul_nonneg hmw (by exact_mod_cast Nat.zero_le h)) hw
    have hfl : ⌊(mw : ℚ) / img_aspect w h⌋ = py_int_div (mw * (h : ℤ)) (w : ℤ) := by
      unfold img_aspect
      rw [div_div_eq_mul_div]
      rw [py_int_div_eq_floor (mul_nonneg hmw (by exact_mod_cast Nat.zero_le h))]
      congr 1
      push_cast
      ring
    rw [heq]
    exact ⟨by rw [hfl], hb.1, hb.2⟩
  · intro hge
    have heq : new_size mw mh W H w h = (py_int_div (mh * (w : ℤ)) (h : ℤ), mh) := by
      unfold new_size; rw [if_neg hge]
    have hb := py_int_div_bounds (a := mh * (w : ℤ)) (b := h)
      (mul_nonneg hmh (by exact_mod_cast Nat.zero_le w)) hh
    have hfl : ⌊(mh : ℚ) * img_aspect w h⌋ = py_int_div (mh * (w : ℤ)) (h : ℤ) := by
      unfold img_aspect
      rw [mul_div_assoc']
      rw [py_int_div_eq_floor (mul_nonneg hmh (by exact_mod_cast Nat.zero_le w))]
      congr 1
      push_cast
      ring
    rw [heq]
    exact ⟨by rw [hfl], hb.1, hb.2⟩

/-- Witness for C4 on the default 1500×1000 canvas, layout (2, 2), with a
2×1 image (width-bound branch): the resized size is (727, ⌊727/2⌋). -/
theorem resize_formula_witness :
    (aspect_ratio 1500 1000 < img_aspect 2 1
        ↔ ((1500 : ℕ) : ℤ) * ((1 : ℕ) : ℤ) < ((2 : ℕ) : ℤ) * ((1000 : ℕ) : ℤ)) ∧
    (new_size (max_img_w 1500 2) (max_img_h 1500 1000 2) 1500 1000 2 1
        = (max_img_w 1500 2, ⌊(max_img_w 1500 2 : ℚ) / img_aspect 2 1⌋) ∧
      ((2 : ℕ) : ℤ) * (new_size (max_img_w 1500 2) (max_img_h 1500 1000 2) 1500 1000 2 1).2
        ≤ max_img_w 1500 2 * ((1 : ℕ) : ℤ) ∧
      max_img_w 1500 2 * ((1 : ℕ) : ℤ)
        < ((2 : ℕ) : ℤ) * ((new_size (max_img_w 1500 2) (max_img_h 1500 1000 2) 1500 1000 2 1).2 + 1)) :=
  ⟨(resize_formula 1500 1000 2 1 (max_img_w 1500 2) (max_img_h 1500 1000 2)
      (by decide) (by decide) (by decide) (by decide) (by decide)).1,
   (resize_formula 1500 1000 2 1 (max_img_w 1500 2) (max_img_h 1500 1000 2)
      (by decide) (by decide) (by decide) (by decide) (by decide)).2.1 (by decide)⟩

/-- C5 counterexample: the claim's `floor` is wrong where the code's `int()`
truncates a negative quotient toward zero. On a 10000-wide, 11-high canvas
with layout (3, 3): `max_img_h = int((11 − 4·100)/3) = int(−129.67) = −129`,
while `⌊(11 − 4·100)/3⌋ = −130`. -/
theorem geometry_formulas_counterexample :
    max_img_h 10000 11 3
      ≠ ⌊(((11 : ℕ) : ℚ) - (((3 : ℕ) : ℚ) + 1) * ((offset 10000 : ℤ) : ℚ))
          / ((3 : ℕ) : ℚ)⌋ := by
  have h1 : max_img_h 10000 11 3 = -129 := by decide
  have h2 : (offset 10000 : ℤ) = 100 := by decide
  rw [h1, h2]
  rw [show (((11 : ℕ) : ℚ) - (((3 : ℕ) : ℚ) + 1) * ((100 : ℤ) : ℚ)) / ((3 : ℕ) : ℚ)
      = ((-389 : ℤ) : ℚ) / ((3 : ℕ) : ℚ) by push_cast; norm_num]
  rw [Rat.floor_intCast_div_natCast]
  decide

/-- C5 (amended): `paste_images` derives its geometry from the (possibly
rotated) canvas exactly as `offset = ⌊W/100⌋`, `canvasAspect = W/H`, and
the cell bounds are Python `int()` truncations toward zero of
`(W − (rows+1)·offset)/rows` and `(H − (cols+1)·offset)/cols`, which equal
the claimed floors whenever the numerators are nonnegative (the
counterexample shows `floor` is off by one for a negative `max_img_h`). -/
theorem geometry_formulas (W H rows cols : ℕ)
    (hH : 1 ≤ H) (hr : 1 ≤ rows) (hc : 1 ≤ cols) :
    offset W = ⌊(W : ℚ) / 100⌋ ∧
    aspect_ratio W H = (W : ℚ) / (H : ℚ) ∧
    (0 ≤ (W : ℤ) - ((rows : ℤ) + 1) * offset W →
      max_img_w W rows
        = ⌊((W : ℚ) - ((rows : ℚ) + 1) * ((offset W : ℤ) : ℚ)) / (rows : ℚ)⌋) ∧
    (0 ≤ (H : ℤ) - ((cols : ℤ) + 1) * offset W →
      max_img_h W H cols
        = ⌊((H : ℚ) - ((cols : ℚ) + 1) * ((offset W : ℤ) : ℚ)) / (cols : ℚ)⌋) ∧
    (∀ (fs : String → PILImage) (base_image : PILImage) (paths : List String),
      paste_images fs base_image paths (rows, cols)
        = paste_loop fs
            (offset (if rows < cols then rotate90expand base_image else base_image).width)
            (max_img_w (if rows < cols then rotate90expand base_image else base_image).width rows)
            (max_img_h (if rows < cols then rotate90expand base_image else base_image).width
              (if rows < cols then rotate90expand base_image else base_image).height cols)
            (if rows < cols then rotate90expand base_image else base_image).width
            (if rows < cols then rotate90expand base_image else base_image).height
            rows 0 (if rows < cols then rotate90expand base_image else base_image) paths) := by
  refine ⟨?_, rfl, ?_, ?_, fun fs base_image paths => rfl⟩
  · have h := py_int_div_eq_floor (a := (W : ℤ)) (b := 100)
      (by exact_mod_cast Nat.zero_le W)
    push_cast at h
    unfold offset
    exact h
  · intro hnum
    have h := py_int_div_eq_floor (a := (W : ℤ) - ((rows : ℤ) + 1) * offset W)
      (b := rows) hnum
    unfold max_img_w
    rw [h]
    congr 1
    push_cast
    ring
  · intro hnum
    have h := py_int_div_eq_floor (a := (H : ℤ) - ((cols : ℤ) + 1) * offset W)
      (b := cols) hnum
    unfold max_img_h
    rw [h]
    congr 1
    push_cast
    ring

/-- Witness for C5 on the default 1500×1000 canvas with layout (2, 2):
offset 15, max cell 727×477, both floors attained. -/
theorem geometry_formulas_witness :
    offset 1500 = ⌊((1500 : ℕ) : ℚ) / 100⌋ ∧
    max_img_w 1500 2
      = ⌊(((1500 : ℕ) : ℚ) - (((2 : ℕ) : ℚ) + 1) * ((offset 1500 : ℤ) : ℚ))
          / ((2 : ℕ) : ℚ)⌋ ∧
    max_img_h 1500 1000 2
      = ⌊(((1000 : ℕ) : ℚ) - (((2 : ℕ) : ℚ) + 1) * ((offset 1500 : ℤ) : ℚ))
          / ((2 : ℕ) : ℚ)⌋ :=
  ⟨(geometry_formulas 1500 1000 2 2 (by decide) (by decide) (by decide)).1,
   (geometry_formulas 1500 1000 2 2 (by decide) (by decide) (by decide)).2.2.1 (by decide),
   (geometry_formulas 1500 1000 2 2 (by decide) (by decide) (by decide)).2.2.2.1 (by decide)⟩

end Photobooth
